import Mathlib

/-!
Verification of the invocation core of the motan-go RPC framework
(`core/motan.go`): the request/response value model, lazy deserialization,
the filter-chain sentinels, the filter endpoint decorator, and the
extension factory registry.

Go reference semantics are made explicit: string maps live in a `Heap`
indexed by natural-number references, opaque interface values (registry
instances, serializations, providers, trace contexts, async results) are
identified by natural-number tags, and Go's `nil` is `Option.none`.
Logging (`vlog.Errorf`) has no effect on program state; where a claim is
about the log we return the message as data.
-/

namespace Motan

/-- Association-list model of a Go `map[string]α`: lookup scans for the
first binding whose key matches. -/
def mapGet {α : Type} (k : String) : List (String × α) → Option α
  | [] => none
  | p :: rest => if p.1 = k then some p.2 else mapGet k rest

/-- Go map assignment `m[k] = v`: the new binding shadows any older one,
so lookups see the last writer. -/
def mapStore {α : Type} (k : String) (v : α) (m : List (String × α)) : List (String × α) :=
  (k, v) :: m

/-- StringMap contents: string-keyed, string-valued map.
Modelled from the spec: the concrete `StringMap` type is outside this
file; the spec describes it as a concurrency-safe string-to-string map
with `Store`, a load-or-empty read, and a shallow `Copy`. -/
abbrev SMap := List (String × String)

/-- StringMap.LoadOrEmpty: the value bound to `k`, or `""` when absent.
Modelled from the spec: absent keys read as the empty string. -/
def loadOrEmpty (sm : SMap) (k : String) : String :=
  (mapGet k sm).getD ""

/-- Heap of StringMap objects: Go maps are reference values, so requests
and responses hold a reference (index) into this heap and mutation is
in place at that index. -/
structure Heap where
  maps : List SMap
deriving DecidableEq, Repr

/-- Allocate a fresh StringMap holding `sm`; the returned reference is
distinct from every previously allocated one. -/
def Heap.alloc (h : Heap) (sm : SMap) : Heap × Nat :=
  ({ maps := h.maps ++ [sm] }, h.maps.length)

/-- Dereference a StringMap; unallocated references read as empty. -/
def Heap.getMap (h : Heap) (r : Nat) : SMap :=
  (h.maps.getD r [])

/-- StringMap.Store through a reference: in-place update of the map the
reference points to. -/
def Heap.storeKV (h : Heap) (r : Nat) (k v : String) : Heap :=
  { maps := h.maps.set r (mapStore k v (h.maps.getD r [])) }

/-- URL: only the fields this core reads.
Modelled from the spec: the URL value type is outside this file; the
spec requires a protocol name, named-parameter lookup with a default, a
stable identity string, and an address string. -/
structure URL where
  protocol : String
  params : SMap
  identity : String
  address : String
deriving DecidableEq, Repr

/-- URL.GetParam. Modelled from the spec: reads the named parameter,
falling back to the supplied default when it is absent. -/
def URL.getParam (u : URL) (key dflt : String) : String :=
  (mapGet key u.params).getD dflt

/-- URL.GetIdentity. Modelled from the spec: a stable identity string
used as the registry singleton-cache key. -/
def URL.getIdentity (u : URL) : String :=
  u.identity

/-- Argument values carried by a request: either a `*DeserializableValue`
(serialization reference, `none` for Go `nil`, plus raw body bytes) or
any other opaque value. -/
inductive Arg : Type
  | dv (serialization : Option Nat) (body : List Nat)
  | val (v : Nat)
deriving DecidableEq, Repr

/-- Behaviour of the serialization collaborators: serialization tag,
body bytes and `toTypes` hints in, decoded values or an error out
(`Serialization.DeSerializeMulti`). -/
def SerEnv : Type := Nat → List Nat → List Arg → Except String (List Arg)

/-- DeserializableValue.DeserializeMulti: fails with the fixed message
when the Serialization is nil, otherwise delegates to the
serialization's `DeSerializeMulti` on the stored body. -/
def deserializeMulti (env : SerEnv) (serialization : Option Nat) (body : List Nat)
    (toTypes : List Arg) : Except String (List Arg) :=
  match serialization with
  | none => Except.error "deserialize fail in DeserializableValue, Serialization is nil"
  | some sid => env sid body toTypes

/-- RPCContext: per-call side-channel state. Interface-typed fields
(`ExtFactory`, `OriginalMessage`, `Result`, `Reply`, `Tc`) are reference
tags with `none` for nil; scalar fields are copied literally from the Go
struct. -/
structure RPCContext where
  extFactory : Option Nat
  originalMessage : Option Nat
  oneway : Bool
  proxy : Bool
  gzipSize : Int
  serializeNum : Int
  serialized : Bool
  asyncCall : Bool
  result : Option Nat
  reply : Option Nat
  tc : Option Nat
deriving DecidableEq, Repr

/-- Zero value `&RPCContext{}` created by `GetRPCContext(true)`. -/
def emptyRPCContext : RPCContext :=
  { extFactory := none, originalMessage := none, oneway := false, proxy := false,
    gzipSize := 0, serializeNum := 0, serialized := false, asyncCall := false,
    result := none, reply := none, tc := none }

/-- MotanRequest: the default Request implementation. The attachment is
a heap reference (`none` for the nil map); the RPC context is inlined
(`none` for nil pointer); the mutex guarding lazy attachment creation
has no sequential content. -/
structure MotanRequest where
  requestID : Nat
  serviceName : String
  method : String
  methodDesc : String
  arguments : Option (List Arg)
  attachment : Option Nat
  rpcContext : Option RPCContext
deriving DecidableEq, Repr

/-- MotanRequest.GetAttachment: empty string when the map is nil,
otherwise `LoadOrEmpty` on the referenced map. Performs no writes. -/
def MotanRequest.getAttachment (h : Heap) (m : MotanRequest) (key : String) : String :=
  match m.attachment with
  | none => ""
  | some r => loadOrEmpty (h.getMap r) key

/-- MotanRequest.GetArguments. -/
def MotanRequest.getArguments (m : MotanRequest) : Option (List Arg) :=
  m.arguments

/-- MotanRequest.SetArguments. -/
def MotanRequest.setArguments (m : MotanRequest) (args : List Arg) : MotanRequest :=
  { m with arguments := some args }

/-- MotanRequest.GetRPCContext: creates the zero context exactly when
the stored context is nil and `canCreate` holds; returns the stored
context (and the possibly updated request) otherwise. -/
def MotanRequest.getRPCContext (m : MotanRequest) (canCreate : Bool) :
    Option RPCContext × MotanRequest :=
  match m.rpcContext, canCreate with
  | none, true => (some emptyRPCContext, { m with rpcContext := some emptyRPCContext })
  | c, _ => (c, m)

/-- MotanRequest.SetAttachment via GetAttachments: stores through the
existing reference, or lazily allocates the map first when it is nil. -/
def MotanRequest.setAttachment (h : Heap) (m : MotanRequest) (k v : String) :
    Heap × MotanRequest :=
  match m.attachment with
  | some r => (h.storeKV r k v, m)
  | none =>
      let (h1, r) := h.alloc []
      (h1.storeKV r k v, { m with attachment := some r })

/-- Cloneable behaviour of original wire messages: for a message tag,
`some c` means the message implements `Cloneable` and its `Clone()`
returns the message tagged `c`; `none` means it does not implement
`Cloneable`. -/
def MsgEnv : Type := Nat → Option Nat

/-- MotanRequest.ProcessDeserializable: when the argument slice is
non-nil, has exactly one element, and that element is a
`*DeserializableValue`, decode it with `DeserializeMulti` and replace
the arguments on success or return the error leaving them unchanged;
in every other shape do nothing and return nil error. -/
def MotanRequest.processDeserializable (env : SerEnv) (toTypes : List Arg)
    (m : MotanRequest) : Option String × MotanRequest :=
  match m.getArguments with
  | some [Arg.dv s body] =>
      match deserializeMulti env s body toTypes with
      | Except.ok v => (none, m.setArguments v)
      | Except.error e => (some e, m)
  | _ => (none, m)

/-- MotanRequest.Clone: scalar fields and the argument slice are shared;
a non-nil attachment map is copied into a freshly allocated map; a
non-nil RPC context is rebuilt field by field with `Result`, `Reply` and
`Tc` shared, and the original message deep-cloned exactly when it
implements `Cloneable`. -/
def MotanRequest.clone (env : MsgEnv) (h : Heap) (m : MotanRequest) :
    Heap × MotanRequest :=
  let base : MotanRequest :=
    { requestID := m.requestID, serviceName := m.serviceName, method := m.method,
      methodDesc := m.methodDesc, arguments := m.arguments,
      attachment := none, rpcContext := none }
  let (h1, withAtt) :=
    match m.attachment with
    | some r =>
        let (h1, r2) := h.alloc (h.getMap r)
        (h1, { base with attachment := some r2 })
    | none => (h, base)
  match m.rpcContext with
  | some ctx =>
      let newCtx : RPCContext :=
        { extFactory := ctx.extFactory, originalMessage := none,
          oneway := ctx.oneway, proxy := ctx.proxy, gzipSize := ctx.gzipSize,
          serializeNum := ctx.serializeNum, serialized := ctx.serialized,
          asyncCall := ctx.asyncCall, result := ctx.result, reply := ctx.reply,
          tc := ctx.tc }
      let newCtx2 : RPCContext :=
        match ctx.originalMessage with
        | some mid =>
            match env mid with
            | some cid => { newCtx with originalMessage := some cid }
            | none => { newCtx with originalMessage := some mid }
        | none => newCtx
      (h1, { withAtt with rpcContext := some newCtx2 })
  | none => (h1, withAtt)

/-- MotanResponse: the default Response implementation; same conventions
as `MotanRequest`. -/
structure MotanResponse where
  requestID : Nat
  value : Option Arg
  exception : Option (Int × String × Int)
  processTime : Int
  attachment : Option Nat
  rpcContext : Option RPCContext
deriving DecidableEq, Repr

/-- MotanResponse.GetAttachment: empty string when the map is nil,
otherwise `LoadOrEmpty` on the referenced map. Performs no writes. -/
def MotanResponse.getAttachment (h : Heap) (m : MotanResponse) (key : String) : String :=
  match m.attachment with
  | none => ""
  | some r => loadOrEmpty (h.getMap r) key

/-- MotanResponse.GetRPCContext: same creation rule as the request. -/
def MotanResponse.getRPCContext (m : MotanResponse) (canCreate : Bool) :
    Option RPCContext × MotanResponse :=
  match m.rpcContext, canCreate with
  | none, true => (some emptyRPCContext, { m with rpcContext := some emptyRPCContext })
  | c, _ => (c, m)

/-- ProviderKey. Modelled from the spec: the URL parameter naming the
provider; its concrete key string does not affect the claims. -/
def ProviderKey : String := "provider"

/-- ProxyKey. Modelled from the spec: the URL parameter carrying the
encoded export descriptor. -/
def ProxyKey : String := "proxy"

/-- Model of `strings.TrimSpace`: drop whitespace from both ends. -/
def trimSpace (s : String) : String :=
  ⟨((s.data.dropWhile Char.isWhitespace).reverse.dropWhile Char.isWhitespace).reverse⟩

/-- DefaultExtensionFactory: per-role maps from logical name to
constructor function (constructors are opaque tags), plus the
Registry singleton cache keyed by URL identity. `registryCtorCalls`
counts invocations of registry constructors and `nextRegistryInstance`
supplies the distinct instance produced by each invocation; both make
the Go-side object identity and construction count observable. -/
structure DefaultExtensionFactory where
  filterFactories : List (String × Nat)
  haFactories : List (String × Nat)
  lbFactories : List (String × Nat)
  endpointFactories : List (String × Nat)
  providerFactories : List (String × Nat)
  registryFactories : List (String × Nat)
  servers : List (String × Nat)
  messageHandlers : List (String × Nat)
  serializations : List (String × Nat)
  registries : List (String × Nat)
  registryCtorCalls : Nat
  nextRegistryInstance : Nat
deriving DecidableEq, Repr

/-- DefaultExtensionFactory.GetRegistry: look the identity up in the
singleton cache and return the cached instance on a hit; on a miss,
construct through the factory registered under the URL's protocol
(recording the invocation), store the new instance under the identity,
and return it; return nil when no factory is registered. The Go
double-checked locking re-reads the same cache under the lock, which in
sequential semantics collapses to this single lookup. -/
def DefaultExtensionFactory.getRegistry (d : DefaultExtensionFactory) (url : URL) :
    DefaultExtensionFactory × Option Nat :=
  let key := url.getIdentity
  match mapGet key d.registries with
  | some registry => (d, some registry)
  | none =>
      match mapGet url.protocol d.registryFactories with
      | some _ =>
          let registry := d.nextRegistryInstance
          ({ d with registries := mapStore key registry d.registries,
                    registryCtorCalls := d.registryCtorCalls + 1,
                    nextRegistryInstance := registry + 1 }, some registry)
      | none => (d, none)

/-- ParseExportInfo name component. Modelled from the spec: the export
descriptor parser is outside this file; the spec only says the provider
name is derived from the proxy parameter's encoded export descriptor,
so the parse is kept as an arbitrary function parameter. -/
def parseExportName (parse : String → String) (export_ : String) : String :=
  parse export_

/-- DefaultExtensionFactory.GetProvider: the provider parameter when
non-empty, else the name parsed from a non-empty proxy parameter, else
"default"; then invoke the constructor registered under that name, or
return nil when none is registered. Constructed providers are the
constructor tag paired with the URL it was invoked on. -/
def DefaultExtensionFactory.getProvider (parse : String → String)
    (d : DefaultExtensionFactory) (url : URL) : Option (Nat × URL) :=
  let pName := url.getParam ProviderKey ""
  let pName :=
    if pName = "" then
      let proxy := url.getParam ProxyKey ""
      if proxy ≠ "" then parseExportName parse proxy else "default"
    else pName
  match mapGet pName d.providerFactories with
  | some f => some (f, url)
  | none => none

/-- DefaultExtensionFactory.GetSerialization: a non-empty name is
trimmed and looked up by name only; an empty name with a non-negative
id is looked up under the id's decimal string; anything else is nil. -/
def DefaultExtensionFactory.getSerialization (d : DefaultExtensionFactory)
    (name : String) (id : Int) : Option Nat :=
  if name ≠ "" then
    match mapGet (trimSpace name) d.serializations with
    | some f => some f
    | none => none
  else if id > -1 then
    match mapGet (toString id) d.serializations with
    | some f => some f
    | none => none
  else none

/-- DefaultExtensionFactory.RegistryExtSerialization: stores the
constructor under the given name and, additionally, under the decimal
string of the id. -/
def DefaultExtensionFactory.registryExtSerialization (d : DefaultExtensionFactory)
    (name : String) (id : Int) (f : Nat) : DefaultExtensionFactory :=
  { d with serializations :=
      mapStore (toString id) f (mapStore name f d.serializations) }

/-- Span names; the concrete values live outside this file and do not
affect the claims. Modelled from the spec: fixed span names marking
chain entry and exit. -/
def EpFilterEnd : String := "EpFilterEnd"

/-- ClustFliter span name; see `EpFilterEnd`. -/
def ClustFliter : String := "ClustFliter"

/-- Span: a trace record carrying a fixed name and an optional address.
Modelled from the spec: the tracing handle appends named spans with a
timestamp and optional address; wall-clock time is not modelled. -/
structure Span where
  name : String
  addr : String
deriving DecidableEq, Repr

/-- Caller collaborator: an address (`GetURL().GetAddressStr()`), an
availability bit, and the `Call` behaviour as a function from the
request it receives to the response it produces. -/
structure Caller where
  addr : String
  available : Bool
  call : MotanRequest → Nat

/-- HaStrategy collaborator: `Call(request, loadBalance)` behaviour,
with load balancers as opaque tags. -/
structure HaStrategyM where
  call : MotanRequest → Nat → Nat

/-- lastEndPointFilter.Filter: force the RPC context into existence,
record an `EpFilterEnd` span when a tracing handle is present (spans
are returned as data since the trace context is external), then
delegate to `caller.Call` on the same request. -/
def lastEndPointFilterFilter (caller : Caller) (request : MotanRequest) :
    Nat × List Span :=
  let (ctx, request) := request.getRPCContext true
  let spans :=
    match ctx with
    | some c =>
        match c.tc with
        | some _ => [{ name := EpFilterEnd, addr := caller.addr : Span }]
        | none => []
    | none => []
  (caller.call request, spans)

/-- lastClusterFilter.Filter: force the RPC context, record a
`ClustFliter` span when a tracing handle is present, then delegate to
`haStrategy.Call(request, loadBalance)`. -/
def lastClusterFilterFilter (haStrategy : HaStrategyM) (loadBalance : Nat)
    (request : MotanRequest) : Nat × List Span :=
  let (ctx, request) := request.getRPCContext true
  let spans :=
    match ctx with
    | some c =>
        match c.tc with
        | some _ => [{ name := ClustFliter, addr := "" : Span }]
        | none => []
    | none => []
  (haStrategy.call request loadBalance, spans)

/-- Named filter handed to `SetNext`: only its `GetName()` is read. -/
structure NamedFilter where
  filterName : String

/-- Sentinel filter state: the sentinels are empty structs with no next
field at all, so the state has no fields. -/
structure SentinelFilter where
deriving DecidableEq, Repr

/-- lastEndPointFilter.HasNext: always false. -/
def lastEndPointFilterHasNext (_l : SentinelFilter) : Bool := false

/-- lastEndPointFilter.GetNext: always nil. -/
def lastEndPointFilterGetNext (_l : SentinelFilter) : Option NamedFilter := none

/-- lastEndPointFilter.SetNext: logs an error naming the offending
filter and leaves the sentinel untouched; the log line is returned as
data. -/
def lastEndPointFilterSetNext (l : SentinelFilter) (nextFilter : NamedFilter) :
    SentinelFilter × String :=
  (l, "should not set next in lastEndPointFilter! filer:" ++ nextFilter.filterName)

/-- lastClusterFilter.HasNext: always false. -/
def lastClusterFilterHasNext (_l : SentinelFilter) : Bool := false

/-- lastClusterFilter.GetNext: always nil. -/
def lastClusterFilterGetNext (_l : SentinelFilter) : Option NamedFilter := none

/-- lastClusterFilter.SetNext: logs an error and leaves the sentinel
untouched. -/
def lastClusterFilterSetNext (l : SentinelFilter) (nextFilter : NamedFilter) :
    SentinelFilter × String :=
  (l, "should not set next in lastClusterFilter! filer:" ++ nextFilter.filterName)

/-- Loop body of FilterEndPoint.IsAvailable: walk the status checks,
returning false at the first unavailable one. The Go loop walks the
slice by descending index, which is iteration over the reversed list. -/
def checkStatuses : List Bool → Bool
  | [] => true
  | b :: rest => if !b then false else checkStatuses rest

/-- FilterEndPoint, restricted to what availability reads: the
`IsAvailable()` answers of the auxiliary Status filters in registration
order (`none` for a nil slice) and of the wrapped Caller. -/
structure FilterEndPoint where
  statusFilters : Option (List Bool)
  callerAvailable : Bool
deriving DecidableEq, Repr

/-- FilterEndPoint.IsAvailable: when the status slice is non-nil and
non-empty, scan it from the last element down and return false at the
first unavailable filter; otherwise, and when the scan passes, return
the Caller's availability. -/
def FilterEndPoint.isAvailable (f : FilterEndPoint) : Bool :=
  match f.statusFilters with
  | some l =>
      if 0 < l.length then
        if checkStatuses l.reverse then f.callerAvailable else false
      else f.callerAvailable
  | none => f.callerAvailable

/-- Request transformer that changes only the tracing handle of an
existing RPC context; requests without a context are left unchanged. -/
def withTc (m : MotanRequest) (t : Option Nat) : MotanRequest :=
  { m with rpcContext := m.rpcContext.map (fun c => { c with tc := t }) }

/-- Factory state right after `Initialize()`: all maps empty. -/
def emptyFactory : DefaultExtensionFactory :=
  { filterFactories := [], haFactories := [], lbFactories := [],
    endpointFactories := [], providerFactories := [], registryFactories := [],
    servers := [], messageHandlers := [], serializations := [], registries := [],
    registryCtorCalls := 0, nextRegistryInstance := 0 }

theorem checkStatuses_eq_all (l : List Bool) : checkStatuses l = l.all id := by
  induction l with
  | nil => rfl
  | cons b rest ih => cases b <;> simp [checkStatuses, ih]

/-- C3: FilterEndPoint.IsAvailable is the conjunction of the Caller's
availability with every auxiliary Status filter's availability; with no
auxiliary Status filters (nil or empty slice) it is exactly the
Caller's availability; the reverse checking order never changes the
boolean result. -/
theorem filterEndPoint_isAvailable_spec (l : List Bool) (c : Bool) (f : FilterEndPoint) :
    (FilterEndPoint.isAvailable { statusFilters := some l, callerAvailable := c }
        = (l.all id && c))
    ∧ (FilterEndPoint.isAvailable { statusFilters := none, callerAvailable := c } = c)
    ∧ (FilterEndPoint.isAvailable { statusFilters := some [], callerAvailable := c } = c)
    ∧ (FilterEndPoint.isAvailable { statusFilters := some l.reverse, callerAvailable := c }
        = FilterEndPoint.isAvailable { statusFilters := some l, callerAvailable := c })
    ∧ (f.isAvailable = true ↔
        (f.callerAvailable = true ∧ ∀ b ∈ f.statusFilters.getD [], b = true)) := by
  have key : ∀ (l2 : List Bool) (c2 : Bool),
      FilterEndPoint.isAvailable { statusFilters := some l2, callerAvailable := c2 }
        = (l2.all id && c2) := by
    intro l2 c2
    cases l2 with
    | nil => simp [FilterEndPoint.isAvailable]
    | cons b rest =>
        simp only [FilterEndPoint.isAvailable, checkStatuses_eq_all, List.all_reverse]
        have hlen : 0 < (b :: rest).length := Nat.succ_pos _
        simp only [hlen, if_pos]
        cases hall : (b :: rest).all id <;> simp [hall]
  refine ⟨key l c, rfl, by simp [FilterEndPoint.isAvailable], ?_, ?_⟩
  · rw [key, key, List.all_reverse]
  · obtain ⟨sf, ca⟩ := f
    cases sf with
    | none => simp [FilterEndPoint.isAvailable]
    | some l2 =>
        rw [show ({ statusFilters := some l2, callerAvailable := ca } :
              FilterEndPoint).statusFilters.getD [] = l2 from rfl, key]
        simp [List.all_eq_true, Bool.and_eq_true]
        tauto

/-- C4: SetNext on either terminal sentinel leaves the sentinel
unchanged (HasNext stays false, GetNext stays nil) and terminates
normally, merely producing an error log line. -/
theorem sentinel_setNext_refused (l : SentinelFilter) (nf : NamedFilter) :
    ((lastEndPointFilterSetNext l nf).1 = l)
    ∧ (lastEndPointFilterHasNext (lastEndPointFilterSetNext l nf).1 = false)
    ∧ (lastEndPointFilterGetNext (lastEndPointFilterSetNext l nf).1 = none)
    ∧ ((lastClusterFilterSetNext l nf).1 = l)
    ∧ (lastClusterFilterHasNext (lastClusterFilterSetNext l nf).1 = false)
    ∧ (lastClusterFilterGetNext (lastClusterFilterSetNext l nf).1 = none) :=
  ⟨rfl, rfl, rfl, rfl, rfl, rfl⟩

/-- C7: the endpoint sentinel returns exactly `caller.Call` on the
request (after the context-forcing the sentinel itself performs), the
cluster sentinel returns exactly `haStrategy.Call(request, loadBalance)`,
and for collaborators whose behaviour does not read the tracing handle,
the presence or absence of a Tc never changes the returned response. -/
theorem sentinel_filters_delegate (caller : Caller) (ha : HaStrategyM) (lb : Nat)
    (m : MotanRequest) (t1 t2 : Option Nat)
    (hc : ∀ r t, caller.call (withTc r t) = caller.call (withTc r none))
    (hh : ∀ r t, ha.call (withTc r t) lb = ha.call (withTc r none) lb) :
    ((lastEndPointFilterFilter caller m).1 = caller.call (m.getRPCContext true).2)
    ∧ ((lastClusterFilterFilter ha lb m).1 = ha.call (m.getRPCContext true).2 lb)
    ∧ ((lastEndPointFilterFilter caller (withTc m t1)).1
        = (lastEndPointFilterFilter caller (withTc m t2)).1)
    ∧ ((lastClusterFilterFilter ha lb (withTc m t1)).1
        = (lastClusterFilterFilter ha lb (withTc m t2)).1) := by
  have hens : ∀ (r : MotanRequest) (c : RPCContext), r.rpcContext = some c →
      r.getRPCContext true = (some c, r) := by
    intro r c hrc
    simp [MotanRequest.getRPCContext, hrc]
  refine ⟨?_, ?_, ?_, ?_⟩
  · cases hm : m.rpcContext <;>
      simp [lastEndPointFilterFilter, MotanRequest.getRPCContext, hm]
  · cases hm : m.rpcContext <;>
      simp [lastClusterFilterFilter, MotanRequest.getRPCContext, hm]
  · cases hm : m.rpcContext with
    | none =>
        simp [lastEndPointFilterFilter, withTc, MotanRequest.getRPCContext, hm]
    | some c =>
        have e1 := hens (withTc m t1) { c with tc := t1 } (by simp [withTc, hm])
        have e2 := hens (withTc m t2) { c with tc := t2 } (by simp [withTc, hm])
        simp only [lastEndPointFilterFilter, e1, e2]
        rw [hc m t1, hc m t2]
  · cases hm : m.rpcContext with
    | none =>
        simp [lastClusterFilterFilter, withTc, MotanRequest.getRPCContext, hm]
    | some c =>
        have e1 := hens (withTc m t1) { c with tc := t1 } (by simp [withTc, hm])
        have e2 := hens (withTc m t2) { c with tc := t2 } (by simp [withTc, hm])
        simp only [lastClusterFilterFilter, e1, e2]
        rw [hh m t1, hh m t2]

/-- Sample collaborators used to instantiate hypothesis-bearing
theorems at concrete inputs. -/
def sampleCaller : Caller :=
  { addr := "127.0.0.1:8002", available := true, call := fun r => r.requestID }

/-- Sample HA strategy; see `sampleCaller`. -/
def sampleHa : HaStrategyM :=
  { call := fun r lb => r.requestID + lb }

/-- Sample request with no attachment and no RPC context. -/
def sampleRequest : MotanRequest :=
  { requestID := 42, serviceName := "svc", method := "m", methodDesc := "",
    arguments := none, attachment := none, rpcContext := none }

theorem sentinel_filters_delegate_witness :
    ((lastEndPointFilterFilter sampleCaller sampleRequest).1
        = sampleCaller.call (sampleRequest.getRPCContext true).2)
    ∧ ((lastClusterFilterFilter sampleHa 3 sampleRequest).1
        = sampleHa.call (sampleRequest.getRPCContext true).2 3)
    ∧ ((lastEndPointFilterFilter sampleCaller (withTc sampleRequest (some 1))).1
        = (lastEndPointFilterFilter sampleCaller (withTc sampleRequest none)).1)
    ∧ ((lastClusterFilterFilter sampleHa 3 (withTc sampleRequest (some 1))).1
        = (lastClusterFilterFilter sampleHa 3 (withTc sampleRequest none)).1) :=
  sentinel_filters_delegate sampleCaller sampleHa 3 sampleRequest (some 1) none
    (fun _ _ => rfl) (fun _ _ => rfl)

/-- C1: after a successful GetRegistry for an identity, a later
GetRegistry for any URL with the same identity returns the exact same
instance, leaves the factory state unchanged, and invokes no registry
constructor. -/
theorem getRegistry_memoizes (d d1 : DefaultExtensionFactory) (u u2 : URL) (r : Nat)
    (h : d.getRegistry u = (d1, some r)) (hid : u2.getIdentity = u.getIdentity) :
    d1.getRegistry u2 = (d1, some r)
    ∧ (d1.getRegistry u2).1.registryCtorCalls = d1.registryCtorCalls := by
  have main : d1.getRegistry u2 = (d1, some r) := by
    simp only [DefaultExtensionFactory.getRegistry] at h ⊢
    rw [hid]
    cases hm : mapGet u.getIdentity d.registries with
    | some reg =>
        rw [hm] at h
        simp only [Prod.mk.injEq, Option.some.injEq] at h
        obtain ⟨h1, h2⟩ := h
        subst h1; subst h2
        simp [hm]
    | none =>
        rw [hm] at h
        cases hf : mapGet u.protocol d.registryFactories with
        | some f =>
            rw [hf] at h
            simp only [Prod.mk.injEq, Option.some.injEq] at h
            obtain ⟨h1, h2⟩ := h
            subst h1; subst h2
            simp [mapGet, mapStore]
        | none =>
            rw [hf] at h
            simp at h
  exact ⟨main, by rw [main]⟩

/-- Factory holding one registered registry constructor. -/
def regFactory : DefaultExtensionFactory :=
  { emptyFactory with registryFactories := [("zookeeper", 9)] }

/-- Two URLs sharing the same identity string. -/
def regUrlA : URL :=
  { protocol := "zookeeper", params := [], identity := "zookeeper://h:2181/g",
    address := "h:2181" }

/-- Second URL with the identity of `regUrlA`. -/
def regUrlB : URL :=
  { regUrlA with params := [("x", "y")] }

theorem getRegistry_memoizes_witness :
    ((regFactory.getRegistry regUrlA).1.getRegistry regUrlB
        = ((regFactory.getRegistry regUrlA).1, some 0))
    ∧ (((regFactory.getRegistry regUrlA).1.getRegistry regUrlB).1.registryCtorCalls
        = (regFactory.getRegistry regUrlA).1.registryCtorCalls) :=
  getRegistry_memoizes regFactory (regFactory.getRegistry regUrlA).1 regUrlA regUrlB 0
    rfl rfl

/-- C2: ProcessDeserializable decodes a single pending
DeserializableValue argument through DeSerializeMulti, replacing the
arguments on success so GetArguments returns the decoded values; a nil
Serialization yields the fixed descriptive error with arguments
unchanged; a decode error propagates with arguments unchanged; and nil
arguments, argument lists of length other than one, or a single
non-DeserializableValue argument are left untouched with a nil error. -/
theorem processDeserializable_spec (env : SerEnv) (toTypes : List Arg)
    (m : MotanRequest) :
    (∀ sid body vs, m.arguments = some [Arg.dv (some sid) body] →
        env sid body toTypes = Except.ok vs →
        m.processDeserializable env toTypes = (none, { m with arguments := some vs })
          ∧ (m.processDeserializable env toTypes).2.getArguments = some vs)
    ∧ (∀ body, m.arguments = some [Arg.dv none body] →
        m.processDeserializable env toTypes
          = (some "deserialize fail in DeserializableValue, Serialization is nil", m))
    ∧ (∀ sid body e, m.arguments = some [Arg.dv (some sid) body] →
        env sid body toTypes = Except.error e →
        m.processDeserializable env toTypes = (some e, m))
    ∧ (m.arguments = none → m.processDeserializable env toTypes = (none, m))
    ∧ (∀ args, m.arguments = some args → args.length ≠ 1 →
        m.processDeserializable env toTypes = (none, m))
    ∧ (∀ v, m.arguments = some [Arg.val v] →
        m.processDeserializable env toTypes = (none, m)) := by
  refine ⟨?_, ?_, ?_, ?_, ?_, ?_⟩
  · intro sid body vs h1 h2
    constructor <;>
      simp [MotanRequest.processDeserializable, MotanRequest.getArguments, h1,
        deserializeMulti, h2, MotanRequest.setArguments]
  · intro body h1
    simp [MotanRequest.processDeserializable, MotanRequest.getArguments, h1,
      deserializeMulti]
  · intro sid body e h1 h2
    simp [MotanRequest.processDeserializable, MotanRequest.getArguments, h1,
      deserializeMulti, h2]
  · intro h1
    simp [MotanRequest.processDeserializable, MotanRequest.getArguments, h1]
  · intro args h1 hlen
    rcases args with _ | ⟨a, _ | ⟨b, t⟩⟩
    · simp [MotanRequest.processDeserializable, MotanRequest.getArguments, h1]
    · exact absurd rfl hlen
    · rcases a with ⟨s, body⟩ | v <;>
        simp [MotanRequest.processDeserializable, MotanRequest.getArguments, h1]
  · intro v h1
    simp [MotanRequest.processDeserializable, MotanRequest.getArguments, h1]

/-- Request whose single argument is a pending DeserializableValue for
serialization tag 0 with body bytes [1, 2]. -/
def pendingRequest : MotanRequest :=
  { sampleRequest with arguments := some [Arg.dv (some 0) [1, 2]] }

/-- Serialization environment decoding every body to two values. -/
def sampleSerEnv : SerEnv :=
  fun _ _ _ => Except.ok [Arg.val 7, Arg.val 8]

theorem processDeserializable_spec_witness :
    pendingRequest.processDeserializable sampleSerEnv []
        = (none, { pendingRequest with arguments := some [Arg.val 7, Arg.val 8] })
    ∧ (pendingRequest.processDeserializable sampleSerEnv []).2.getArguments
        = some [Arg.val 7, Arg.val 8] :=
  (processDeserializable_spec sampleSerEnv [] pendingRequest).1 0 [1, 2]
    [Arg.val 7, Arg.val 8] rfl rfl

theorem getD_set_ne {α : Type} (l : List α) (i j : Nat) (a d : α) (hij : i ≠ j) :
    (l.set i a).getD j d = l.getD j d := by
  rw [List.getD_eq_getD_get?, List.getD_eq_getD_get?, List.get?_eq_getElem?,
    List.get?_eq_getElem?, List.getElem?_set_ne hij]

theorem clone_heap_attachment (env : MsgEnv) (h : Heap) (m : MotanRequest) (r : Nat)
    (hr : m.attachment = some r) :
    (m.clone env h).1 = { maps := h.maps ++ [h.getMap r] }
    ∧ (m.clone env h).2.attachment = some h.maps.length := by
  cases hm : m.rpcContext with
  | none =>
      constructor <;> simp [MotanRequest.clone, hr, hm, Heap.alloc]
  | some ctx =>
      constructor <;> simp [MotanRequest.clone, hr, hm, Heap.alloc]

/-- C5: cloning a request with a non-nil attachment map allocates an
independently owned copy, so storing into the clone's attachments
leaves every attachment value of the original unchanged. -/
theorem clone_attachment_independent (env : MsgEnv) (h : Heap) (m : MotanRequest)
    (r : Nat) (k v key : String) (hr : m.attachment = some r)
    (hlt : r < h.maps.length) :
    MotanRequest.getAttachment
        ((m.clone env h).2.setAttachment (m.clone env h).1 k v).1 m key
      = MotanRequest.getAttachment h m key := by
  obtain ⟨hh1, hatt⟩ := clone_heap_attachment env h m r hr
  have hset : ((m.clone env h).2.setAttachment (m.clone env h).1 k v).1
      = ((m.clone env h).1).storeKV h.maps.length k v := by
    simp [MotanRequest.setAttachment, hatt]
  rw [hset, hh1]
  simp only [MotanRequest.getAttachment, hr]
  have hmaps : (Heap.storeKV { maps := h.maps ++ [h.getMap r] } h.maps.length k v).getMap r
      = h.getMap r := by
    simp only [Heap.storeKV, Heap.getMap]
    rw [getD_set_ne _ _ _ _ _ (Nat.ne_of_gt hlt)]
    exact List.getD_append _ _ _ _ hlt
  rw [hmaps]

/-- Heap with one StringMap `{"a": "1"}` at reference 0. -/
def heapW : Heap := { maps := [[("a", "1")]] }

/-- Request owning the attachment map at reference 0 of `heapW`. -/
def reqW : MotanRequest :=
  { sampleRequest with attachment := some 0 }

/-- Message environment in which no message implements Cloneable. -/
def msgEnvW : MsgEnv := fun _ => none

theorem clone_attachment_independent_witness :
    MotanRequest.getAttachment
        ((reqW.clone msgEnvW heapW).2.setAttachment (reqW.clone msgEnvW heapW).1 "a" "2").1
        reqW "a"
      = "1" :=
  (clone_attachment_independent msgEnvW heapW reqW 0 "a" "2" "a" rfl
    (Nat.zero_lt_succ 0)).trans rfl

/-- C6: cloning a request whose RPC context holds a non-nil original
message sets the clone's original message to the message's `Clone()`
result exactly when the message implements Cloneable, and to the same
reference otherwise; the context's Result, Reply and Tc are always
shared by reference. -/
theorem clone_rpcContext_sharing (env : MsgEnv) (h : Heap) (m : MotanRequest)
    (ctx : RPCContext) (mid : Nat) (hc : m.rpcContext = some ctx)
    (hm : ctx.originalMessage = some mid) :
    ∃ ctx2 : RPCContext, (m.clone env h).2.rpcContext = some ctx2
      ∧ ctx2.originalMessage = some ((env mid).getD mid)
      ∧ (∀ cid, env mid = some cid → ctx2.originalMessage = some cid)
      ∧ (env mid = none → ctx2.originalMessage = some mid)
      ∧ ctx2.result = ctx.result ∧ ctx2.reply = ctx.reply ∧ ctx2.tc = ctx.tc := by
  have key : (m.clone env h).2.rpcContext = some
      { extFactory := ctx.extFactory, originalMessage := some ((env mid).getD mid),
        oneway := ctx.oneway, proxy := ctx.proxy, gzipSize := ctx.gzipSize,
        serializeNum := ctx.serializeNum, serialized := ctx.serialized,
        asyncCall := ctx.asyncCall, result := ctx.result, reply := ctx.reply,
        tc := ctx.tc } := by
    cases ha : m.attachment <;> cases henv : env mid <;>
      simp [MotanRequest.clone, hc, hm, ha, henv, Heap.alloc]
  refine ⟨_, key, rfl, ?_, ?_, rfl, rfl, rfl⟩
  · intro cid hcid
    simp [hcid]
  · intro hn
    simp [hn]

/-- Message environment in which message 5 implements Cloneable and its
`Clone()` returns message 6. -/
def msgEnvC : MsgEnv := fun n => if n = 5 then some 6 else none

/-- RPC context holding original message 5 and shared async fields. -/
def ctxC : RPCContext :=
  { emptyRPCContext with
    originalMessage := some 5, result := some 1, reply := some 2, tc := some 3 }

/-- Request carrying `ctxC`. -/
def reqC : MotanRequest :=
  { sampleRequest with rpcContext := some ctxC }

theorem clone_rpcContext_sharing_witness :
    ∃ ctx2 : RPCContext, (reqC.clone msgEnvC heapW).2.rpcContext = some ctx2
      ∧ ctx2.originalMessage = some ((msgEnvC 5).getD 5)
      ∧ (∀ cid, msgEnvC 5 = some cid → ctx2.originalMessage = some cid)
      ∧ (msgEnvC 5 = none → ctx2.originalMessage = some 5)
      ∧ ctx2.result = ctxC.result ∧ ctx2.reply = ctxC.reply ∧ ctx2.tc = ctxC.tc :=
  clone_rpcContext_sharing msgEnvC heapW reqC ctxC 5 rfl rfl

/-- C8: GetProvider resolves the provider name as the URL's provider
parameter when non-empty, else the name parsed from a non-empty proxy
parameter's export descriptor, else "default", and returns the result
of the constructor registered under the resolved name, or nil when no
constructor is registered under it. -/
theorem getProvider_resolution (parse : String → String)
    (d : DefaultExtensionFactory) (u : URL) :
    (u.getParam ProviderKey "" ≠ "" →
        d.getProvider parse u
          = (mapGet (u.getParam ProviderKey "") d.providerFactories).map (fun f => (f, u)))
    ∧ (u.getParam ProviderKey "" = "" → u.getParam ProxyKey "" ≠ "" →
        d.getProvider parse u
          = (mapGet (parse (u.getParam ProxyKey "")) d.providerFactories).map
              (fun f => (f, u)))
    ∧ (u.getParam ProviderKey "" = "" → u.getParam ProxyKey "" = "" →
        d.getProvider parse u
          = (mapGet "default" d.providerFactories).map (fun f => (f, u))) := by
  refine ⟨?_, ?_, ?_⟩
  · intro h1
    cases hm : mapGet (u.getParam ProviderKey "") d.providerFactories <;>
      simp [DefaultExtensionFactory.getProvider, parseExportName, h1, hm]
  · intro h1 h2
    cases hm : mapGet (parse (u.getParam ProxyKey "")) d.providerFactories <;>
      simp [DefaultExtensionFactory.getProvider, parseExportName, h1, h2, hm]
  · intro h1 h2
    cases hm : mapGet "default" d.providerFactories <;>
      simp [DefaultExtensionFactory.getProvider, parseExportName, h1, h2, hm]

/-- Factory with one registered provider constructor per name used by
the witness. -/
def provFactory : DefaultExtensionFactory :=
  { emptyFactory with
    providerFactories := [("p1", 11), ("px", 12), ("default", 13)] }

/-- URL carrying an explicit provider parameter. -/
def provUrlNamed : URL :=
  { protocol := "motan2", params := [(ProviderKey, "p1")], identity := "i1",
    address := "a1" }

/-- URL carrying only a proxy parameter. -/
def provUrlProxy : URL :=
  { protocol := "motan2", params := [(ProxyKey, "px:8002")], identity := "i2",
    address := "a2" }

/-- URL with neither a provider nor a proxy parameter. -/
def provUrlBare : URL :=
  { protocol := "motan2", params := [], identity := "i3", address := "a3" }

/-- Export-descriptor parse taking the part before the first colon. -/
def parseColonName (s : String) : String :=
  ⟨s.data.takeWhile (fun c => c ≠ ':')⟩

theorem getProvider_resolution_witness :
    (provFactory.getProvider parseColonName provUrlNamed
        = (mapGet "p1" provFactory.providerFactories).map (fun f => (f, provUrlNamed)))
    ∧ (provFactory.getProvider parseColonName provUrlProxy
        = (mapGet (parseColonName "px:8002") provFactory.providerFactories).map
            (fun f => (f, provUrlProxy)))
    ∧ (provFactory.getProvider parseColonName provUrlBare
        = (mapGet "default" provFactory.providerFactories).map
            (fun f => (f, provUrlBare))) :=
  ⟨(getProvider_resolution parseColonName provFactory provUrlNamed).1 (by decide),
   (getProvider_resolution parseColonName provFactory provUrlProxy).2.1 rfl (by decide),
   (getProvider_resolution parseColonName provFactory provUrlBare).2.2 rfl rfl⟩

/-- C9: with a nil attachment map, GetAttachment returns the empty
string for every key on both requests and responses (the read performs
no allocation, being a pure read); with a nil RPC context,
GetRPCContext(false) returns nil leaving the object unchanged, while
GetRPCContext(true) installs the zero context and every later call
returns that same context without modifying the object again. -/
theorem nil_tolerance (h : Heap) (m : MotanRequest) (resp : MotanResponse)
    (key : String) (ha : m.attachment = none) (hra : resp.attachment = none)
    (hc : m.rpcContext = none) (hrc : resp.rpcContext = none) :
    (m.getAttachment h key = "")
    ∧ (resp.getAttachment h key = "")
    ∧ (m.getRPCContext false = (none, m))
    ∧ (resp.getRPCContext false = (none, resp))
    ∧ (m.getRPCContext true
        = (some emptyRPCContext, { m with rpcContext := some emptyRPCContext }))
    ∧ (({ m with rpcContext := some emptyRPCContext } : MotanRequest).getRPCContext true
        = (some emptyRPCContext, { m with rpcContext := some emptyRPCContext }))
    ∧ (({ m with rpcContext := some emptyRPCContext } : MotanRequest).getRPCContext false
        = (some emptyRPCContext, { m with rpcContext := some emptyRPCContext }))
    ∧ (resp.getRPCContext true
        = (some emptyRPCContext, { resp with rpcContext := some emptyRPCContext }))
    ∧ (({ resp with rpcContext := some emptyRPCContext } : MotanResponse).getRPCContext true
        = (some emptyRPCContext, { resp with rpcContext := some emptyRPCContext })) := by
  refine ⟨?_, ?_, ?_, ?_, ?_, rfl, rfl, ?_, rfl⟩
  · simp [MotanRequest.getAttachment, ha]
  · simp [MotanResponse.getAttachment, hra]
  · simp [MotanRequest.getRPCContext, hc]
  · simp [MotanResponse.getRPCContext, hrc]
  · simp [MotanRequest.getRPCContext, hc]
  · simp [MotanResponse.getRPCContext, hrc]

/-- Response with nil attachment map and nil RPC context. -/
def respW : MotanResponse :=
  { requestID := 42, value := none, exception := none, processTime := 0,
    attachment := none, rpcContext := none }

theorem nil_tolerance_witness :
    (sampleRequest.getAttachment heapW "k" = "")
    ∧ (respW.getAttachment heapW "k" = "")
    ∧ (sampleRequest.getRPCContext false = (none, sampleRequest))
    ∧ (respW.getRPCContext false = (none, respW))
    ∧ (sampleRequest.getRPCContext true
        = (some emptyRPCContext,
            { sampleRequest with rpcContext := some emptyRPCContext }))
    ∧ (({ sampleRequest with rpcContext := some emptyRPCContext } :
          MotanRequest).getRPCContext true
        = (some emptyRPCContext,
            { sampleRequest with rpcContext := some emptyRPCContext }))
    ∧ (({ sampleRequest with rpcContext := some emptyRPCContext } :
          MotanRequest).getRPCContext false
        = (some emptyRPCContext,
            { sampleRequest with rpcContext := some emptyRPCContext }))
    ∧ (respW.getRPCContext true
        = (some emptyRPCContext, { respW with rpcContext := some emptyRPCContext }))
    ∧ (({ respW with rpcContext := some emptyRPCContext } :
          MotanResponse).getRPCContext true
        = (some emptyRPCContext, { respW with rpcContext := some emptyRPCContext })) :=
  nil_tolerance heapW sampleRequest respW "k" rfl rfl rfl rfl

/-- C10 counterexample: registering under the name " x" (which is not
whitespace-trimmed) makes the subsequent GetSerialization with that
very name return nil, because the lookup trims the name while the
registration stores it untrimmed; the claim promised the constructor
would be found. -/
theorem serialization_name_claim_counterexample :
    (emptyFactory.registryExtSerialization " x" 7 3).getSerialization " x" 7 = none := by
  rfl

/-- C10 (amended): RegistryExtSerialization stores the constructor
under the given name and the id's decimal string, so GetSerialization
with that name (when non-empty and whitespace-trimmed, since the lookup
trims it) returns it for any id argument, and GetSerialization with the
empty name and the registered non-negative id returns it; a later
registration whose id decimal string equals the earlier name, or whose
name equals the earlier id's decimal string, overwrites that entry with
the last writer winning. -/
theorem registryExtSerialization_spec (d : DefaultExtensionFactory)
    (name name2 : String) (id id2 : Int) (f g : Nat) (anyId : Int)
    (hn : name ≠ "") (ht : trimSpace name = name) (hid : 0 ≤ id) :
    ((d.registryExtSerialization name id f).getSerialization name anyId = some f)
    ∧ ((d.registryExtSerialization name id f).getSerialization "" id = some f)
    ∧ (toString id2 = name →
        ((d.registryExtSerialization name id f).registryExtSerialization name2 id2 g).getSerialization
            name anyId
          = some g)
    ∧ (name2 = toString id →
        ((d.registryExtSerialization name id f).registryExtSerialization name2 id2 g).getSerialization
            "" id
          = some g) := by
  have hgt : id > -1 := by omega
  refine ⟨?_, ?_, ?_, ?_⟩
  · by_cases hq : toString id = name <;>
      simp [DefaultExtensionFactory.getSerialization,
        DefaultExtensionFactory.registryExtSerialization, mapGet, mapStore, hn, ht, hq]
  · simp [DefaultExtensionFactory.getSerialization,
      DefaultExtensionFactory.registryExtSerialization, mapGet, mapStore, hgt]
  · intro hq
    simp [DefaultExtensionFactory.getSerialization,
      DefaultExtensionFactory.registryExtSerialization, mapGet, mapStore, hn, ht, hq]
  · intro hq
    by_cases hq2 : toString id2 = toString id <;>
      simp [DefaultExtensionFactory.getSerialization,
        DefaultExtensionFactory.registryExtSerialization, mapGet, mapStore, hgt, hq, hq2]

theorem registryExtSerialization_spec_witness :
    ((emptyFactory.registryExtSerialization "7" 1 3).getSerialization "7" 0 = some 3)
    ∧ ((emptyFactory.registryExtSerialization "7" 1 3).getSerialization "" 1 = some 3)
    ∧ (((emptyFactory.registryExtSerialization "7" 1 3).registryExtSerialization "1" 7 4).getSerialization
          "7" 0
        = some 4)
    ∧ (((emptyFactory.registryExtSerialization "7" 1 3).registryExtSerialization "1" 7 4).getSerialization
          "" 1
        = some 4) := by
  have h := registryExtSerialization_spec emptyFactory "7" "1" 1 7 3 4 0
    (by decide) (by decide) (by decide)
  exact ⟨h.1, h.2.1, h.2.2.1 (by decide), h.2.2.2 (by decide)⟩

end Motan
